import Mathlib

/-!
Verification of the lbrynet storage / stream-descriptor / migration layer.

The Python sources are shallowly embedded: byte strings become `String`,
python exceptions become an explicit error type `PyErr`, SQLite tables
become Lean lists of row structures, and the external content-hash
primitive (`get_lbry_hash_obj`, sha384, out of scope per the spec) is a
parameter `HashFn` whose `digest`/`hexdigest` are applied to the full
concatenation of all `update` calls.
-/

namespace Lbry

/-- Python exception kinds that the embedded code can raise. -/
inductive PyErr where
  | invalidDescriptor (reason : String)
  | keyError (key : String)
  | indexError
  | typeError
  | integrityError
  | operationalError
  | valueError
  | assertionError
  | osError
deriving DecidableEq, Repr

/-- The external content-hash primitive: a hash object accumulates `update`
calls; we model `digest`/`hexdigest` as functions of the concatenated input. -/
structure HashFn where
  digest : String → String
  hexdigest : String → String

/-- One entry of the `blobs` list of a raw stream-descriptor dictionary.
`blob_hash` is `none` when the key is absent from the dictionary. -/
structure RawBlob where
  blob_hash : Option String
  blob_num : Nat
  iv : String
  length : Nat
deriving DecidableEq, Repr

/-- A raw stream-descriptor dictionary (`self.raw_info`), with `none`
for an absent key. -/
structure RawInfo where
  stream_type : Option String
  stream_name : Option String
  key : Option String
  suggested_file_name : Option String
  stream_hash : Option String
  blobs : Option (List RawBlob)
deriving DecidableEq, Repr

/-- The characters accepted by the validator hex check. -/
def hexChars : List Char := "0123456789abcdef".toList

/-- Error-propagating map, the shape of the validator loop over blobs. -/
def mapE {α β : Type} (f : α → Except PyErr β) : List α → Except PyErr (List β)
  | [] => Except.ok []
  | a :: as =>
    match f a with
    | Except.error e => Except.error e
    | Except.ok b =>
      match mapE f as with
      | Except.error e => Except.error e
      | Except.ok bs => Except.ok (b :: bs)

/-- `get_blob_hashsum` from `EncryptedFileStreamDescriptorValidator.validate`:
per-blob digest over blob hash (accessed, hence `KeyError` when the key is
absent, only when `length != 0`), decimal `blob_num`, `iv`, decimal `length`. -/
def get_blob_hashsum (H : HashFn) (b : RawBlob) : Except PyErr String :=
  if b.length ≠ 0 then
    match b.blob_hash with
    | none => Except.error (PyErr.keyError "blob_hash")
    | some bh =>
      Except.ok (H.digest (bh ++ toString b.blob_num ++ b.iv ++ toString b.length))
  else
    Except.ok (H.digest (toString b.blob_num ++ b.iv ++ toString b.length))

/-- The candidate stream hash as assembled by the validator: the outer hash
object is updated with `stream_name`, `key`, `suggested_file_name` and then
the digest of the concatenated per-blob digests. -/
def candFromSums (H : HashFn) (sn k sfn : String) (sums : List String) : String :=
  H.hexdigest (sn ++ k ++ sfn ++ H.digest (String.join sums))

/-- The validator candidate-hash computation extracted from the source:
run `get_blob_hashsum` over the chain and combine with the stream fields. -/
def validatorCandidateHash (H : HashFn) (sn k sfn : String) (blobs : List RawBlob) :
    Except PyErr String :=
  match mapE (get_blob_hashsum H) blobs with
  | Except.error e => Except.error e
  | Except.ok sums => Except.ok (candFromSums H sn k sfn sums)

/-- `EncryptedFileStreamDescriptorValidator.validate`: field extraction with
`KeyError` turned into `InvalidStreamDescriptorError`, hex check on the
suggested file name only, the per-blob digest loop, the `blobs[-1]`
terminator check (an `IndexError` on an empty list), and the final
candidate-hash comparison. -/
def validate (H : HashFn) (raw : RawInfo) : Except PyErr Bool :=
  match raw.stream_name with
  | none => Except.error (PyErr.invalidDescriptor "Missing stream_name")
  | some hex_stream_name =>
    match raw.key with
    | none => Except.error (PyErr.invalidDescriptor "Missing key")
    | some key =>
      match raw.suggested_file_name with
      | none => Except.error (PyErr.invalidDescriptor "Missing suggested_file_name")
      | some hex_suggested_file_name =>
        match raw.stream_hash with
        | none => Except.error (PyErr.invalidDescriptor "Missing stream_hash")
        | some stream_hash =>
          match raw.blobs with
          | none => Except.error (PyErr.invalidDescriptor "Missing blobs")
          | some blobs =>
            if hex_suggested_file_name.toList.all (fun c => hexChars.contains c) then
              match mapE (get_blob_hashsum H) blobs with
              | Except.error e => Except.error e
              | Except.ok sums =>
                match blobs.getLast? with
                | none => Except.error PyErr.indexError
                | some lastBlob =>
                  if lastBlob.length ≠ 0 then
                    Except.error (PyErr.invalidDescriptor "Does not end with a zero-length blob.")
                  else if candFromSums H hex_stream_name key hex_suggested_file_name sums
                      ≠ stream_hash then
                    Except.error (PyErr.invalidDescriptor "Stream hash does not match stream metadata")
                  else
                    Except.ok true
            else
              Except.error (PyErr.invalidDescriptor "Suggested file name is not a hex-encoded string")

/-- The per-blob digest as the claim words it: hash of the concatenation of
the blob hash bytes (omitted entirely when the length is zero), the decimal
string of the position, the iv bytes, and the decimal string of the length. -/
def specDigest (H : HashFn) (b : RawBlob) : String :=
  H.digest ((if b.length = 0 then "" else b.blob_hash.getD "") ++
    toString b.blob_num ++ b.iv ++ toString b.length)

/-- The candidate stream hash as the claim words the algorithm (spec-side
definition for the refinement claim C1): aggregate digest of the per-blob
digests in chain order, then the hash of name, key, suggested filename and
the aggregate digest concatenated in that order. -/
def claimedStreamHash (H : HashFn) (sn k sfn : String) (blobs : List RawBlob) : String :=
  H.hexdigest (sn ++ k ++ sfn ++
    H.digest (String.join (blobs.map (fun b =>
      H.digest ((if b.length = 0 then "" else b.blob_hash.getD "") ++
        toString b.blob_num ++ b.iv ++ toString b.length)))))

theorem claimedStreamHash_eq_cand (H : HashFn) (sn k sfn : String) (blobs : List RawBlob) :
    claimedStreamHash H sn k sfn blobs = candFromSums H sn k sfn (blobs.map (specDigest H)) :=
  rfl

theorem str_empty_append (s : String) : "" ++ s = s := rfl

/-- A blob entry that carries a hash whenever its length is nonzero hashes to
exactly the per-blob digest of the claim. -/
theorem get_blob_hashsum_eq_spec (H : HashFn) (b : RawBlob)
    (hb : b.length ≠ 0 → b.blob_hash.isSome) :
    get_blob_hashsum H b = Except.ok (specDigest H b) := by
  by_cases hlen : b.length = 0
  · simp [get_blob_hashsum, specDigest, hlen, str_empty_append]
  · rcases Option.isSome_iff_exists.mp (hb hlen) with ⟨bh, hbh⟩
    simp [get_blob_hashsum, specDigest, hlen, hbh]

/-- When every nonzero-length entry carries a blob hash, the validator loop
succeeds and produces exactly the per-blob digests of the claim. -/
theorem mapE_hashsum_ok (H : HashFn) :
    ∀ (bl : List RawBlob), (∀ b ∈ bl, b.length ≠ 0 → b.blob_hash.isSome) →
      mapE (get_blob_hashsum H) bl = Except.ok (bl.map (specDigest H))
  | [], _ => rfl
  | b :: bs, hp => by
    have hb := get_blob_hashsum_eq_spec H b (hp b (List.mem_cons_self b bs))
    have hrest := mapE_hashsum_ok H bs (fun x hx hlen => hp x (List.mem_cons_of_mem b hx) hlen)
    simp [mapE, hb, hrest]

/-- Conversely, when the validator loop succeeds, every nonzero-length entry
had a blob hash and the produced digests are the per-blob digests. -/
theorem mapE_hashsum_inv (H : HashFn) :
    ∀ (bl : List RawBlob) (sums : List String),
      mapE (get_blob_hashsum H) bl = Except.ok sums →
      (∀ b ∈ bl, b.length ≠ 0 → b.blob_hash.isSome) ∧ sums = bl.map (specDigest H)
  | [], sums, h => by
    simp [mapE] at h
    simp [h.symm]
  | b :: bs, sums, h => by
    rcases hfb : get_blob_hashsum H b with e | d
    · rw [mapE, hfb] at h; exact absurd h (by simp)
    · rcases hr : mapE (get_blob_hashsum H) bs with e | rest
      · rw [mapE, hfb, hr] at h; exact absurd h (by simp)
      · rw [mapE, hfb, hr] at h
        simp only [Except.ok.injEq] at h
        rcases mapE_hashsum_inv H bs rest hr with ⟨hp, hsums⟩
        have hbpres : b.length ≠ 0 → b.blob_hash.isSome := by
          intro hlen
          rcases hbh : b.blob_hash with _ | bh
          · rw [get_blob_hashsum, if_pos hlen, hbh] at hfb
            exact absurd hfb (by simp)
          · simp
        have hd : d = specDigest H b := by
          rw [get_blob_hashsum_eq_spec H b hbpres] at hfb
          injection hfb with heq
          exact heq.symm
        refine ⟨?_, ?_⟩
        · intro x hx hxlen
          rcases List.mem_cons.mp hx with hxb | hxbs
          · subst hxb; exact hbpres hxlen
          · exact hp x hxbs hxlen
        · simp [h.symm, hd, hsums]

/-- A concrete toy hash function for witnesses and counterexamples
(the hash primitive is an external collaborator, so any function is a
legitimate instantiation). -/
def Htoy : HashFn :=
  ⟨fun s => "D(" ++ s ++ ")", fun s => "X(" ++ s ++ ")"⟩

/-- A small two-entry chain: one data blob and the zero-length terminator. -/
def blobsW : List RawBlob :=
  [⟨some "bb", 0, "69", 5⟩, ⟨none, 1, "70", 0⟩]

/-- C1: for every blob chain and stream fields, the validator computes the
candidate stream hash by exactly the claimed algorithm: per-blob digest over
blob hash bytes (omitted entirely when the length is zero), decimal position,
iv bytes and decimal length; an aggregate digest of the per-blob digests in
chain order; then the hash of stream name, key, suggested filename and the
aggregate digest concatenated in that order. -/
theorem c1_validator_hash_algorithm (H : HashFn) (sn k sfn : String) (blobs : List RawBlob)
    (hp : ∀ b ∈ blobs, b.length ≠ 0 → b.blob_hash.isSome) :
    validatorCandidateHash H sn k sfn blobs =
      Except.ok (claimedStreamHash H sn k sfn blobs) := by
  simp [validatorCandidateHash, mapE_hashsum_ok H blobs hp, claimedStreamHash_eq_cand]

/-- C1 witness: the theorem applied to a concrete chain and the toy hash. -/
theorem c1_witness :
    validatorCandidateHash Htoy "6e" "6b" "61" blobsW =
      Except.ok (claimedStreamHash Htoy "6e" "6b" "61" blobsW) :=
  c1_validator_hash_algorithm Htoy "6e" "6b" "61" blobsW (by decide)

/-- A descriptor whose fields are all present and well formed but whose blob
chain is empty. -/
def rawEmptyChain : RawInfo :=
  ⟨some "lbryfile", some "6e", some "6b", some "61", some "deadbeef", some []⟩

/-- C3 counterexample: on an empty chain the validator raises `IndexError`
(from `blobs[-1]`), not `InvalidStreamDescriptorError`, so an empty chain
does escape as another kind of exception. -/
theorem c3_counterexample :
    validate Htoy rawEmptyChain = Except.error PyErr.indexError := rfl

/-- C3 (amended): validation succeeds exactly when the five required fields
are present, the suggested file name is hex, every nonzero-length entry has a
blob hash, the chain is nonempty with a zero-length final entry in list
order, and the candidate hash equals the claimed stream hash; additionally an
empty chain (all fields present and hex-valid) fails with `IndexError` rather
than `InvalidStreamDescriptorError`. Note the hex check applies only to the
suggested file name, a non-terminal zero-length entry is not itself rejected,
and a nonzero-length entry lacking a blob hash surfaces as a `KeyError`. -/
theorem c3_amended (H : HashFn) (raw : RawInfo) :
    (validate H raw = Except.ok true ↔
      ∃ sn k sfn sh bl, raw.stream_name = some sn ∧ raw.key = some k ∧
        raw.suggested_file_name = some sfn ∧ raw.stream_hash = some sh ∧
        raw.blobs = some bl ∧
        sfn.toList.all (fun c => hexChars.contains c) = true ∧
        (∀ b ∈ bl, b.length ≠ 0 → b.blob_hash.isSome) ∧
        (∃ lastb, bl.getLast? = some lastb ∧ lastb.length = 0) ∧
        claimedStreamHash H sn k sfn bl = sh) ∧
    (∀ sn k sfn sh, raw.stream_name = some sn → raw.key = some k →
      raw.suggested_file_name = some sfn → raw.stream_hash = some sh →
      raw.blobs = some [] →
      sfn.toList.all (fun c => hexChars.contains c) = true →
      validate H raw = Except.error PyErr.indexError) := by
  obtain ⟨st, osn, okey, osfn, osh, obl⟩ := raw
  constructor
  · constructor
    · intro h
      rcases osn with _ | sn
      · simp [validate] at h
      rcases okey with _ | k
      · simp [validate] at h
      rcases osfn with _ | sfn
      · simp [validate] at h
      rcases osh with _ | sh
      · simp [validate] at h
      rcases obl with _ | bl
      · simp [validate] at h
      simp only [validate] at h
      split at h
      case isTrue hhex =>
        split at h
        case h_1 e heq => simp at h
        case h_2 sums heq =>
          split at h
          case h_1 => simp at h
          case h_2 lastb heq2 =>
            split at h
            case isTrue hlen => simp at h
            case isFalse hlen =>
              split at h
              case isTrue hcand => simp at h
              case isFalse hcand =>
                rcases mapE_hashsum_inv H bl sums heq with ⟨hpres, hsums⟩
                refine ⟨sn, k, sfn, sh, bl, rfl, rfl, rfl, rfl, rfl, hhex, hpres,
                  ⟨lastb, heq2, not_not.mp hlen⟩, ?_⟩
                rw [claimedStreamHash_eq_cand, ← hsums]
                exact not_not.mp hcand
      case isFalse hhex => simp at h
    · rintro ⟨sn, k, sfn, sh, bl, hsn, hk, hsfn, hsh, hbl, hhex, hpres,
        ⟨lastb, hlast, hlen⟩, hcand⟩
      obtain rfl := hsn
      obtain rfl := hk
      obtain rfl := hsfn
      obtain rfl := hsh
      obtain rfl := hbl
      rw [claimedStreamHash_eq_cand] at hcand
      simp only [validate, mapE_hashsum_ok H bl hpres, hlast, if_pos hhex]
      rw [if_neg (show ¬ lastb.length ≠ 0 by simp [hlen])]
      rw [if_neg (show ¬ candFromSums H sn k sfn (bl.map (specDigest H)) ≠ sh by simp [hcand])]
  · rintro sn k sfn sh hsn hk hsfn hsh hbl hhex
    obtain rfl := hsn
    obtain rfl := hk
    obtain rfl := hsfn
    obtain rfl := hsh
    obtain rfl := hbl
    simp only [validate, if_pos hhex, mapE]
    simp

/-- The stream hash of `blobsW` with the stream fields of the witnesses,
computed with the toy hash. -/
def shW : String := claimedStreamHash Htoy "6e" "6b" "61" blobsW

/-- A concrete well-formed raw descriptor for `blobsW`. -/
def rawGood : RawInfo :=
  ⟨some "lbryfile", some "6e", some "6b", some "61", some shW, some blobsW⟩

/-- C3 witness: the amended characterization applied to a concrete
descriptor and the toy hash. -/
theorem c3_witness :
    validate Htoy rawGood = Except.ok true ↔
      ∃ sn k sfn sh bl, rawGood.stream_name = some sn ∧ rawGood.key = some k ∧
        rawGood.suggested_file_name = some sfn ∧ rawGood.stream_hash = some sh ∧
        rawGood.blobs = some bl ∧
        sfn.toList.all (fun c => hexChars.contains c) = true ∧
        (∀ b ∈ bl, b.length ≠ 0 → b.blob_hash.isSome) ∧
        (∃ lastb, bl.getLast? = some lastb ∧ lastb.length = 0) ∧
        claimedStreamHash Htoy sn k sfn bl = sh :=
  (c3_amended Htoy rawGood).1

/-! ## The SQLite storage layer (`lbrynet/database/storage.py`)

Tables are lists of row structures kept in insertion order; an SQL
`select ... where key=?` on a unique key becomes `List.find?`, timestamps
(`time.time()` floats) become `Int` parameters, and the two separate
`time.time()` calls of `get_blobs_to_announce` / `get_next_announce_time`
become two parameters `t1 ≤ t2`. -/

/-- A row of the `blob` table. -/
structure BlobRow where
  blob_hash : String
  blob_length : Nat
  next_announce_time : Int
  should_announce : Bool
  status : String
deriving DecidableEq, Repr

/-- A row of the `stream` table. -/
structure StreamRow where
  stream_hash : String
  sd_hash : String
  stream_key : String
  stream_name : String
  suggested_filename : String
deriving DecidableEq, Repr

/-- A row of the `stream_blob` table (`blob_hash` nullable for the
terminator). -/
structure StreamBlobRow where
  stream_hash : String
  blob_hash : Option String
  position : Nat
  iv : String
deriving DecidableEq, Repr

/-- A row of the `file` table, with its SQLite `rowid`. -/
structure FileRow where
  rowid : Nat
  stream_hash : String
  claim_outpoint : String
  file_name : String
  download_directory : String
  blob_data_rate : Int
  status : String
deriving DecidableEq, Repr

/-- A row of the `claim` table, in insertion (`rowid`) order in the list. -/
structure ClaimRow where
  claim_outpoint : String
  claim_id : String
  claim_name : String
  amount : Int
  height : Int
  serialized_metadata : String
  channel_claim_id : Option String
  address : String
  claim_sequence : Int
deriving DecidableEq, Repr

/-- The unified database of `SQLiteStorage`. -/
structure DB where
  blob : List BlobRow
  stream : List StreamRow
  stream_blob : List StreamBlobRow
  file : List FileRow
  claim : List ClaimRow
deriving DecidableEq, Repr

/-- `SQLiteStorage.get_blob_status`: `None` when no row matches. -/
def get_blob_status (db : DB) (blob_hash : String) : Option String :=
  (db.blob.find? (fun b => b.blob_hash == blob_hash)).map (fun b => b.status)

/-- A plain `insert into blob` statement: `IntegrityError` on a primary-key
conflict. -/
def insert_blob (db : DB) (r : BlobRow) : Except PyErr DB :=
  if db.blob.any (fun b => b.blob_hash == r.blob_hash) then Except.error PyErr.integrityError
  else Except.ok { db with blob := db.blob ++ [r] }

/-- `SQLiteStorage.add_known_blob`: look up the status and insert a
`pending` row only when absent, returning the current status either way. -/
def add_known_blob (db : DB) (blob_hash : String) (length : Nat) :
    Except PyErr (String × DB) :=
  match get_blob_status db blob_hash with
  | some status => Except.ok (status, db)
  | none =>
    match insert_blob db ⟨blob_hash, length, 0, false, "pending"⟩ with
    | Except.error e => Except.error e
    | Except.ok db1 => Except.ok ("pending", db1)

/-- `get_next_announce_time` from `storage.py`: the announcer queue size
plus the number of hashes being announced, times the per-hash announce
duration, floored by the minimum reannounce interval, added to the (second)
current-time reading. -/
def get_next_announce_time (t2 : Int) (hash_queue_size num_hashes_to_announce : Nat) : Int :=
  t2 + max 3600 (((hash_queue_size + num_hashes_to_announce : Nat) : Int) * 5)

/-- The rows selected by `get_blobs_to_announce`: due rows, additionally
restricted to `should_announce` when announcing head blobs only. There is no
`status` restriction in the source query. -/
def announce_rows (db : DB) (head_only : Bool) (t1 : Int) : List BlobRow :=
  if head_only then
    db.blob.filter (fun b => b.should_announce && decide (b.next_announce_time < t1))
  else
    db.blob.filter (fun b => decide (b.next_announce_time < t1))

/-- `SQLiteStorage.get_blobs_to_announce`: select the due hashes, then set
`next_announce_time` on every row with `next_announce_time < t1` to the value
of `get_next_announce_time`. `t1` is the `time.time()` read at the start of
the transaction and `t2` the one read inside `get_next_announce_time`. -/
def get_blobs_to_announce (db : DB) (head_only : Bool) (hash_queue_size : Nat)
    (t1 t2 : Int) : List String × DB :=
  let blobs := (announce_rows db head_only t1).map (fun b => b.blob_hash)
  let next := get_next_announce_time t2 hash_queue_size blobs.length
  (blobs,
    { db with blob := db.blob.map (fun b =>
        if b.next_announce_time < t1 then { b with next_announce_time := next } else b) })

/-- The returned set as claim C6 describes it (spec-side definition for the
counterexample): restricted to `should_announce` AND `status = finished`
under head-only announcing. -/
def claimed_announce_hashes (db : DB) (head_only : Bool) (t1 : Int) : List String :=
  (if head_only then
    db.blob.filter (fun b =>
      b.should_announce && (b.status == "finished") && decide (b.next_announce_time < t1))
  else
    db.blob.filter (fun b => decide (b.next_announce_time < t1))).map (fun b => b.blob_hash)

/-- `CryptBlobInfo` as used by `get_blobs_for_stream`. -/
structure CryptBlobInfo where
  blob_hash : Option String
  blob_num : Nat
  length : Nat
  iv : String
deriving DecidableEq, Repr

/-- Stable insertion of one entry into a list sorted by `blob_num`. -/
def insertByNum (x : CryptBlobInfo) : List CryptBlobInfo → List CryptBlobInfo
  | [] => [x]
  | y :: ys => if x.blob_num ≤ y.blob_num then x :: y :: ys else y :: insertByNum x ys

/-- The `sorted(..., key=lambda info: info.blob_num)` of
`get_blobs_for_stream`, as a stable insertion sort. -/
def sortByNum : List CryptBlobInfo → List CryptBlobInfo
  | [] => []
  | x :: xs => insertByNum x (sortByNum xs)

/-- `SQLiteStorage.get_blobs_for_stream`: the stream_blob rows of the stream,
lengths resolved through the `blob` table (0 when the hash is null or
unknown), sorted by position. -/
def get_blobs_for_stream (db : DB) (stream_hash : String) : List CryptBlobInfo :=
  let rows := db.stream_blob.filter (fun r => r.stream_hash == stream_hash)
  if rows.isEmpty then []
  else
    sortByNum (rows.map (fun r =>
      match r.blob_hash with
      | some bh =>
        match db.blob.find? (fun b => b.blob_hash == bh) with
        | some b => ⟨some bh, r.position, b.blob_length, r.iv⟩
        | none => ⟨some bh, r.position, 0, r.iv⟩
      | none => ⟨none, r.position, 0, r.iv⟩))

/-- `SQLiteStorage.get_all_streams`. -/
def get_all_streams (db : DB) : List String :=
  db.stream.map (fun s => s.stream_hash)

/-- `SQLiteStorage.get_stream_info`: `(stream_key, stream_name,
suggested_filename)` of the first matching row, `None` when absent. -/
def get_stream_info (db : DB) (stream_hash : String) : Option (String × String × String) :=
  (db.stream.find? (fun s => s.stream_hash == stream_hash)).map
    (fun s => (s.stream_key, s.stream_name, s.suggested_filename))

/-- `SQLiteStorage.get_sd_blob_hash_for_stream`. -/
def get_sd_blob_hash_for_stream (db : DB) (stream_hash : String) : Option String :=
  (db.stream.find? (fun s => s.stream_hash == stream_hash)).map (fun s => s.sd_hash)

/-- `SQLiteStorage.get_lbry_file_status`: status of the file row with the
given rowid, `None` when absent. -/
def get_lbry_file_status (db : DB) (rowid : Nat) : Option String :=
  (db.file.find? (fun f => f.rowid == rowid)).map (fun f => f.status)

/-- `SQLiteStorage.get_claim`: `fetchone` on `order by rowid desc` yields the
most recently inserted matching row; when there is none, unpacking `None`
into `_claim_response` raises a `TypeError`. -/
def get_claim (db : DB) (claim_id : String) : Except PyErr ClaimRow :=
  match (db.claim.filter (fun c => c.claim_id == claim_id)).getLast? with
  | none => Except.error PyErr.typeError
  | some c => Except.ok c

/-- `delete from blob where blob_hash=?` where the parameter may be SQL
`NULL` (which matches no row). -/
def remove_blob_hash (blobs : List BlobRow) (h : Option String) : List BlobRow :=
  blobs.filter (fun b => !(h == some b.blob_hash))

/-- `SQLiteStorage.delete_stream`: the descriptor hash and the chain are
looked up first, then the file, stream-blob, stream rows and the descriptor
and chain blob rows are deleted. -/
def delete_stream (db : DB) (stream_hash : String) : DB :=
  let sd_hash := get_sd_blob_hash_for_stream db stream_hash
  let stream_blobs := get_blobs_for_stream db stream_hash
  let blob_hashes := stream_blobs.map (fun b => b.blob_hash)
  { db with
    file := db.file.filter (fun f => !(f.stream_hash == stream_hash)),
    stream_blob := db.stream_blob.filter (fun r => !(r.stream_hash == stream_hash)),
    stream := db.stream.filter (fun s => !(s.stream_hash == stream_hash)),
    blob := blob_hashes.foldl remove_blob_hash (remove_blob_hash db.blob sd_hash) }

/-- `str()` applied to an optional value, as python renders `None`. -/
def strOfOptHash : Option String → String
  | none => "None"
  | some s => s

/-- One formatted blob of `get_sd_info`: the `blob_hash` key is present
exactly when the length is nonzero. -/
def format_blob (e : CryptBlobInfo) : RawBlob :=
  { blob_hash := if e.length ≠ 0 then some (strOfOptHash e.blob_hash) else none,
    blob_num := e.blob_num, iv := e.iv, length := e.length }

/-- `get_sd_info` from `StreamDescriptor.py`: decode the stored stream into
a raw descriptor dictionary; a missing stream makes `format_info` subscript
`None` and raise `TypeError`. -/
def get_sd_info (db : DB) (stream_hash : String) (include_blobs : Bool) :
    Except PyErr RawInfo :=
  match get_stream_info db stream_hash with
  | none => Except.error PyErr.typeError
  | some (key, name, suggested) =>
    let blobs := if include_blobs then get_blobs_for_stream db stream_hash else []
    Except.ok
      { stream_type := some "lbryfile", stream_name := some name, key := some key,
        suggested_file_name := some suggested, stream_hash := some stream_hash,
        blobs := some (blobs.map format_blob) }

theorem find?_append_singleton_of_none {α : Type} (p : α → Bool) :
    ∀ (l : List α) (r : α), l.find? p = none → p r = true → (l ++ [r]).find? p = some r
  | [], r, _, hr => by simp [List.find?, hr]
  | a :: as, r, hl, hr => by
    cases hpa : p a
    · rw [List.cons_append, List.find?_cons_of_neg _ (by simp [hpa])]
      rw [List.find?_cons_of_neg _ (by simp [hpa])] at hl
      exact find?_append_singleton_of_none p as r hl hr
    · rw [List.find?_cons_of_pos _ hpa] at hl
      exact absurd hl (by simp)

/-- C9: `add_known_blob` is idempotent: it never raises, the second call
with the same hash returns the same status and leaves the stored rows
unchanged, and when no row existed the returned status is `pending`. -/
theorem c9_add_known_blob_idempotent (db : DB) (h : String) (len : Nat) :
    ∃ s db1, add_known_blob db h len = Except.ok (s, db1) ∧
      add_known_blob db1 h len = Except.ok (s, db1) ∧
      (get_blob_status db h = none → s = "pending") := by
  rcases hst : get_blob_status db h with _ | s0
  · have hfind : db.blob.find? (fun b => b.blob_hash == h) = none := by
      unfold get_blob_status at hst
      exact Option.map_eq_none.mp hst
    have hany : db.blob.any (fun b => b.blob_hash == h) = false := by
      rw [List.any_eq_false]
      intro b hb
      have := List.find?_eq_none.mp hfind b hb
      simpa using this
    refine ⟨"pending", { db with blob := db.blob ++ [⟨h, len, 0, false, "pending"⟩] },
      ?_, ?_, fun _ => rfl⟩
    · simp [add_known_blob, hst, insert_blob, hany]
    · have hst1 : get_blob_status { db with blob := db.blob ++ [⟨h, len, 0, false, "pending"⟩] } h
          = some "pending" := by
        unfold get_blob_status
        rw [find?_append_singleton_of_none _ _ _ hfind (by simp)]
        rfl
      simp [add_known_blob, hst1]
  · exact ⟨s0, db, by simp [add_known_blob, hst], by simp [add_known_blob, hst],
      by simp [hst]⟩

/-- C9 witness: a fresh hash on the empty database; inserted as `pending`
and idempotent on the second call. -/
theorem c9_witness :
    ∃ s db1, add_known_blob ⟨[], [], [], [], []⟩ "aa" 5 = Except.ok (s, db1) ∧
      add_known_blob db1 "aa" 5 = Except.ok (s, db1) ∧
      (get_blob_status ⟨[], [], [], [], []⟩ "aa" = none → s = "pending") :=
  c9_add_known_blob_idempotent ⟨[], [], [], [], []⟩ "aa" 5

/-- The empty database. -/
def dbEmpty : DB := ⟨[], [], [], [], []⟩

/-- C10 counterexample: `get_claim` on a database with no matching Claim row
raises `TypeError` (from `_claim_response(*None)`) instead of returning an
absent-value result. -/
theorem c10_counterexample :
    get_claim dbEmpty "abcd" = Except.error PyErr.typeError := rfl

/-- C10 (amended): `get_blob_status`, `get_stream_info` and
`get_lbry_file_status` return an absent value (`None`) for an unknown key
and never raise, but `get_claim` for a claim id with no stored row raises
`TypeError` rather than yielding an absent-value result. -/
theorem c10_lookups_absent (db : DB) (bh sh : String) (rid : Nat) (cid : String) :
    ((∀ b ∈ db.blob, b.blob_hash ≠ bh) → get_blob_status db bh = none) ∧
    ((∀ s ∈ db.stream, s.stream_hash ≠ sh) → get_stream_info db sh = none) ∧
    ((∀ f ∈ db.file, f.rowid ≠ rid) → get_lbry_file_status db rid = none) ∧
    ((∀ c ∈ db.claim, c.claim_id ≠ cid) → get_claim db cid = Except.error PyErr.typeError) := by
  refine ⟨?_, ?_, ?_, ?_⟩
  · intro hn
    unfold get_blob_status
    rw [List.find?_eq_none.mpr (fun x hx => by simp [hn x hx])]
    rfl
  · intro hn
    unfold get_stream_info
    rw [List.find?_eq_none.mpr (fun x hx => by simp [hn x hx])]
    rfl
  · intro hn
    unfold get_lbry_file_status
    rw [List.find?_eq_none.mpr (fun x hx => by simp [hn x hx])]
    rfl
  · intro hn
    unfold get_claim
    rw [show db.claim.filter (fun c => c.claim_id == cid) = [] from
      List.filter_eq_nil_iff.mpr (fun c hc => by simp [hn c hc])]
    rfl

/-- C10 witness: the amended lookups on the empty database. -/
theorem c10_witness :
    get_blob_status dbEmpty "aa" = none ∧ get_stream_info dbEmpty "bb" = none ∧
    get_lbry_file_status dbEmpty 0 = none ∧
    get_claim dbEmpty "cc" = Except.error PyErr.typeError :=
  ⟨(c10_lookups_absent dbEmpty "aa" "bb" 0 "cc").1 (by simp [dbEmpty]),
   (c10_lookups_absent dbEmpty "aa" "bb" 0 "cc").2.1 (by simp [dbEmpty]),
   (c10_lookups_absent dbEmpty "aa" "bb" 0 "cc").2.2.1 (by simp [dbEmpty]),
   (c10_lookups_absent dbEmpty "aa" "bb" 0 "cc").2.2.2 (by simp [dbEmpty])⟩

theorem mem_foldl_remove :
    ∀ (l : List (Option String)) (bs : List BlobRow) (b : BlobRow),
      b ∈ l.foldl remove_blob_hash bs → b ∈ bs ∧ ∀ o ∈ l, o ≠ some b.blob_hash
  | [], bs, b, h => ⟨h, by simp⟩
  | o :: os, bs, b, h => by
    rcases mem_foldl_remove os (remove_blob_hash bs o) b h with ⟨hmem, hrest⟩
    have hfil := List.mem_filter.mp hmem
    refine ⟨hfil.1, ?_⟩
    intro o2 ho2
    rcases List.mem_cons.mp ho2 with rfl | ho2s
    · have hb := hfil.2
      simpa using hb
    · exact hrest o2 ho2s

/-- C8: `delete_stream` removes the File row of the stream, all StreamBlob rows,
the Stream row (so `get_all_streams` excludes it), the descriptor Blob row
and every chain Blob row; the chain and descriptor hash are the values
looked up from the pre-deletion database state. -/
theorem c8_delete_stream_gc (db : DB) (sh : String) :
    (∀ r ∈ (delete_stream db sh).stream_blob, r.stream_hash ≠ sh) ∧
    (∀ f ∈ (delete_stream db sh).file, f.stream_hash ≠ sh) ∧
    sh ∉ get_all_streams (delete_stream db sh) ∧
    (∀ h, get_sd_blob_hash_for_stream db sh = some h →
      ∀ b ∈ (delete_stream db sh).blob, b.blob_hash ≠ h) ∧
    (∀ h, some h ∈ (get_blobs_for_stream db sh).map (fun e => e.blob_hash) →
      ∀ b ∈ (delete_stream db sh).blob, b.blob_hash ≠ h) := by
  refine ⟨?_, ?_, ?_, ?_, ?_⟩
  · intro r hr
    have := (List.mem_filter.mp hr).2
    simpa using this
  · intro f hf
    have := (List.mem_filter.mp hf).2
    simpa using this
  · intro hmem
    rcases List.mem_map.mp hmem with ⟨s, hs, hsh⟩
    have := (List.mem_filter.mp hs).2
    simp [hsh] at this
  · intro h hsd b hb
    simp only [delete_stream] at hb
    rw [hsd] at hb
    rcases mem_foldl_remove _ _ b hb with ⟨hmem, _⟩
    have := (List.mem_filter.mp hmem).2
    simp only [Bool.not_eq_true', beq_eq_false_iff_ne, ne_eq] at this
    intro heq
    exact this (by rw [heq])
  · intro h hchain b hb
    simp only [delete_stream] at hb
    rcases mem_foldl_remove _ _ b hb with ⟨_, hall⟩
    have := hall (some h) hchain
    intro heq
    exact this (by rw [heq])

/-- A stored stream with a chain and a file row, for the C8 witness. -/
def dbW8 : DB :=
  { blob := [⟨"sd1", 10, 0, true, "finished"⟩, ⟨"b1", 5, 0, false, "finished"⟩],
    stream := [⟨"sh1", "sd1", "6b", "6e", "61"⟩],
    stream_blob := [⟨"sh1", some "b1", 0, "69"⟩, ⟨"sh1", none, 1, "70"⟩],
    file := [⟨1, "sh1", "op1", "f", "d", 0, "stopped"⟩],
    claim := [] }

/-- C8 witness: the garbage-collection facts at a concrete populated
database. -/
theorem c8_witness :
    (∀ r ∈ (delete_stream dbW8 "sh1").stream_blob, r.stream_hash ≠ "sh1") ∧
    (∀ f ∈ (delete_stream dbW8 "sh1").file, f.stream_hash ≠ "sh1") ∧
    "sh1" ∉ get_all_streams (delete_stream dbW8 "sh1") ∧
    (∀ h, get_sd_blob_hash_for_stream dbW8 "sh1" = some h →
      ∀ b ∈ (delete_stream dbW8 "sh1").blob, b.blob_hash ≠ h) ∧
    (∀ h, some h ∈ (get_blobs_for_stream dbW8 "sh1").map (fun e => e.blob_hash) →
      ∀ b ∈ (delete_stream dbW8 "sh1").blob, b.blob_hash ≠ h) :=
  c8_delete_stream_gc dbW8 "sh1"

theorem announce_rows_mem (db : DB) (head_only : Bool) (t1 : Int) :
    ∀ b ∈ announce_rows db head_only t1, b ∈ db.blob ∧ b.next_announce_time < t1 := by
  intro b hb
  unfold announce_rows at hb
  cases head_only
  · have := List.mem_filter.mp hb
    exact ⟨this.1, by simpa using this.2⟩
  · have := List.mem_filter.mp hb
    refine ⟨this.1, ?_⟩
    have h2 := this.2
    simp only [Bool.and_eq_true, decide_eq_true_eq] at h2
    exact h2.2

/-- A blob that should be announced but is still `pending`, due for
announcement. -/
def dbW6 : DB := ⟨[⟨"aa", 1, 0, true, "pending"⟩], [], [], [], []⟩

/-- C6 counterexample: under head-only announcing the source query has no
`status = finished` restriction, so a due `pending` head blob is returned,
while the claimed result set (restricted to finished rows) is empty. -/
theorem c6_counterexample :
    (get_blobs_to_announce dbW6 true 0 10 10).1 = ["aa"] ∧
    claimed_announce_hashes dbW6 true 10 = [] := by
  exact ⟨rfl, rfl⟩

/-- C6 (amended): the call returns the hashes of rows with
`next_announce_time < now` — restricted, under head-only announcing, to
`should_announce` rows (with no status restriction) — and every returned
next_announce_time of the row is advanced to
`t2 + max(min_reannounce_interval, queue_size * per_item_announce_cost)`
where `queue_size` is the announcer-reported queue length plus the count of
returned hashes. -/
theorem c6_announce_query (db : DB) (head_only : Bool) (q : Nat) (t1 t2 : Int)
    (hnd : (db.blob.map (fun b => b.blob_hash)).Nodup) :
    (get_blobs_to_announce db head_only q t1 t2).1 =
      (announce_rows db head_only t1).map (fun b => b.blob_hash) ∧
    ∀ b ∈ db.blob, b.blob_hash ∈ (get_blobs_to_announce db head_only q t1 t2).1 →
      { b with next_announce_time :=
          get_next_announce_time t2 q (get_blobs_to_announce db head_only q t1 t2).1.length }
        ∈ (get_blobs_to_announce db head_only q t1 t2).2.blob := by
  refine ⟨rfl, ?_⟩
  intro b hb hmem
  rcases List.mem_map.mp hmem with ⟨b2, hb2, hhash⟩
  rcases announce_rows_mem db head_only t1 b2 hb2 with ⟨hb2mem, hb2lt⟩
  have hbb : b2 = b := List.inj_on_of_nodup_map hnd hb2mem hb hhash
  subst hbb
  have : ({ b2 with next_announce_time :=
      get_next_announce_time t2 q (get_blobs_to_announce db head_only q t1 t2).1.length } : BlobRow) =
      (fun b => if b.next_announce_time < t1 then
        { b with next_announce_time :=
          get_next_announce_time t2 q ((announce_rows db head_only t1).map
            (fun b => b.blob_hash)).length } else b) b2 := by
    simp [hb2lt, get_blobs_to_announce]
  rw [this]
  exact List.mem_map_of_mem _ hb2mem

/-- Two due blobs, one head-announce `pending` and one ordinary `finished`. -/
def dbW67 : DB :=
  ⟨[⟨"aa", 1, 0, true, "pending"⟩, ⟨"bb", 2, 5, false, "finished"⟩], [], [], [], []⟩

/-- C6 witness: the amended announce-query contract at a concrete database. -/
theorem c6_witness :
    (get_blobs_to_announce dbW67 false 0 10 10).1 =
      (announce_rows dbW67 false 10).map (fun b => b.blob_hash) ∧
    ∀ b ∈ dbW67.blob, b.blob_hash ∈ (get_blobs_to_announce dbW67 false 0 10 10).1 →
      { b with next_announce_time :=
          get_next_announce_time 10 0 (get_blobs_to_announce dbW67 false 0 10 10).1.length }
        ∈ (get_blobs_to_announce dbW67 false 0 10 10).2.blob :=
  c6_announce_query dbW67 false 0 10 10 (by decide)

/-- C7: one call of the announce query never returns the same hash twice,
and afterward the stored next_announce_time of every returned row is strictly
greater than the `now` the call used (assuming the primary-key uniqueness of
blob hashes and a monotone clock between the two `time.time()` reads). -/
theorem c7_announce_distinct_and_advanced (db : DB) (head_only : Bool) (q : Nat)
    (t1 t2 : Int) (hnd : (db.blob.map (fun b => b.blob_hash)).Nodup) (ht : t1 ≤ t2) :
    (get_blobs_to_announce db head_only q t1 t2).1.Nodup ∧
    ∀ b ∈ (get_blobs_to_announce db head_only q t1 t2).2.blob,
      b.blob_hash ∈ (get_blobs_to_announce db head_only q t1 t2).1 →
      t1 < b.next_announce_time := by
  constructor
  · have hsub : List.Sublist (announce_rows db head_only t1) db.blob := by
      unfold announce_rows
      cases head_only
      · exact List.filter_sublist _
      · exact List.filter_sublist _
    show ((announce_rows db head_only t1).map (fun b => b.blob_hash)).Nodup
    exact hnd.sublist (hsub.map (fun b => b.blob_hash))
  · intro b hb hmem
    rcases List.mem_map.mp hb with ⟨a, ha, hupd⟩
    rcases List.mem_map.mp hmem with ⟨r, hr, hrhash⟩
    rcases announce_rows_mem db head_only t1 r hr with ⟨hrmem, hrlt⟩
    have hhash_eq : b.blob_hash = a.blob_hash := by
      rw [← hupd]
      by_cases hlt : a.next_announce_time < t1 <;> simp [hlt]
    have hra : r = a := List.inj_on_of_nodup_map hnd hrmem ha (by rw [hrhash, hhash_eq])
    subst hra
    rw [← hupd, if_pos hrlt]
    have h1 : ∀ n : Nat, t1 < t2 + max 3600 ((n : Int) * 5) := by
      intro n
      have := le_max_left (3600 : Int) ((n : Int) * 5)
      linarith
    exact h1 _

/-- C7 witness: distinctness and strict advancement at a concrete database. -/
theorem c7_witness :
    (get_blobs_to_announce dbW67 false 0 10 10).1.Nodup ∧
    ∀ b ∈ (get_blobs_to_announce dbW67 false 0 10 10).2.blob,
      b.blob_hash ∈ (get_blobs_to_announce dbW67 false 0 10 10).1 →
      (10 : Int) < b.next_announce_time :=
  c7_announce_distinct_and_advanced dbW67 false 0 10 10 (by decide) (by decide)

theorem getLast?_map {α β : Type} (f : α → β) :
    ∀ (l : List α), (l.map f).getLast? = l.getLast?.map f
  | [] => rfl
  | [_] => rfl
  | a :: b :: l => by
    rw [List.map_cons, List.map_cons, List.getLast?_cons_cons, List.getLast?_cons_cons,
      ← List.map_cons]
    exact getLast?_map f (b :: l)

theorem format_blob_presence (chain : List CryptBlobInfo) :
    ∀ b ∈ chain.map format_blob, b.length ≠ 0 → b.blob_hash.isSome := by
  intro b hb hlen
  rcases List.mem_map.mp hb with ⟨e, _, rfl⟩
  simp only [format_blob] at hlen ⊢
  simp [hlen]

/-- C2: a stored stream whose (decoded, position-sorted) chain ends with a
zero-length terminator, whose suggested filename is hex, and whose stored
`stream_hash` was built with the canonicalization rule over the decoded
chain, decodes through `get_sd_info` (with blobs, hash field omitted on the
zero-length entry) to a descriptor that `validate` accepts, the recomputed
candidate hash being exactly the original `stream_hash`. -/
theorem c2_round_trip (H : HashFn) (db : DB) (sh : String) (srow : StreamRow)
    (hfind : db.stream.find? (fun s => s.stream_hash == sh) = some srow)
    (hlast : ((get_blobs_for_stream db sh).getLast?).map (fun e => e.length) = some 0)
    (hhex : (srow.suggested_filename.toList.all (fun c => hexChars.contains c)) = true)
    (hhash : claimedStreamHash H srow.stream_name srow.stream_key srow.suggested_filename
        ((get_blobs_for_stream db sh).map format_blob) = sh) :
    get_sd_info db sh true =
      Except.ok ⟨some "lbryfile", some srow.stream_name, some srow.stream_key,
        some srow.suggested_filename, some sh,
        some ((get_blobs_for_stream db sh).map format_blob)⟩ ∧
    validate H ⟨some "lbryfile", some srow.stream_name, some srow.stream_key,
        some srow.suggested_filename, some sh,
        some ((get_blobs_for_stream db sh).map format_blob)⟩ = Except.ok true ∧
    validatorCandidateHash H srow.stream_name srow.stream_key srow.suggested_filename
        ((get_blobs_for_stream db sh).map format_blob) = Except.ok sh := by
  have hinfo : get_stream_info db sh =
      some (srow.stream_key, srow.stream_name, srow.suggested_filename) := by
    unfold get_stream_info
    rw [hfind]
    rfl
  rcases hlaste : (get_blobs_for_stream db sh).getLast? with _ | lastE
  · rw [hlaste] at hlast
    exact absurd hlast (by simp)
  rw [hlaste] at hlast
  have hlast0 : lastE.length = 0 := by simpa using hlast
  have hpres := format_blob_presence (get_blobs_for_stream db sh)
  rw [claimedStreamHash_eq_cand] at hhash
  refine ⟨?_, ?_, ?_⟩
  · simp [get_sd_info, hinfo]
  · simp only [validate, mapE_hashsum_ok H _ hpres, getLast?_map, hlaste, Option.map,
      if_pos hhex]
    rw [if_neg (show ¬ (format_blob lastE).length ≠ 0 by simp [format_blob, hlast0])]
    rw [if_neg (show ¬ candFromSums H srow.stream_name srow.stream_key srow.suggested_filename
        (((get_blobs_for_stream db sh).map format_blob).map (specDigest H)) ≠ sh by
      simp only [ne_eq, not_not]
      exact hhash)]
  · simp only [validatorCandidateHash, mapE_hashsum_ok H _ hpres]
    simp only [Except.ok.injEq]
    exact hhash

/-- The stored stream of the C2 witness: chain blob `bb` of length 5 at
position 0 and a null-hash terminator at position 1, stream hash computed
with the toy hash via the canonicalization rule. -/
def dbW2 : DB :=
  { blob := [⟨"aa", 10, 0, false, "pending"⟩, ⟨"bb", 5, 0, false, "pending"⟩],
    stream := [⟨shW, "aa", "6b", "6e", "61"⟩],
    stream_blob := [⟨shW, some "bb", 0, "69"⟩, ⟨shW, none, 1, "70"⟩],
    file := [], claim := [] }

/-- C2 witness: the round-trip law at a concrete stored stream. -/
theorem c2_witness :
    get_sd_info dbW2 shW true =
      Except.ok ⟨some "lbryfile", some "6e", some "6b", some "61", some shW,
        some ((get_blobs_for_stream dbW2 shW).map format_blob)⟩ ∧
    validate Htoy ⟨some "lbryfile", some "6e", some "6b", some "61", some shW,
        some ((get_blobs_for_stream dbW2 shW).map format_blob)⟩ = Except.ok true ∧
    validatorCandidateHash Htoy "6e" "6b" "61"
        ((get_blobs_for_stream dbW2 shW).map format_blob) = Except.ok shW :=
  c2_round_trip Htoy dbW2 shW ⟨shW, "aa", "6b", "6e", "61"⟩ (by decide) (by decide)
    (by decide) (by decide)

/-! ## The migration engine (`lbrynet/database/migrator/migrate5to6.py`)

`run_operation` sets `connection.isolation_level` to `None`, which is
sqlite3 autocommit mode: every statement takes effect immediately and the
`rollback()` in the `IntegrityError` handler acts on no open transaction.
The embedding is therefore statement-wise: a failed unit keeps the effects
of its already-executed statements (`stepSeq` returns the state reached so
far together with the error). `INSERT OR IGNORE` skips unique/primary-key
conflicts but still raises `IntegrityError` on a foreign-key violation,
per SQLite semantics with `pragma foreign_keys=on`. -/

/-- One claim record as fetched from the legacy metadata store
(`claimId, name, claim_sequence, claim_address, height, amount, claim_pb`). -/
structure ClaimRec where
  claim_id : String
  name : String
  sequence : Int
  address : String
  height : Int
  amount : Int
  serialized : String
deriving DecidableEq, Repr

/-- The `"%s:%i"` outpoint rendering. -/
def outpointStr (o : String × Nat) : String := o.1 ++ ":" ++ toString o.2

/-- A row of the `file` table of the migration target, shaped as the five-value
insert of the migrator. -/
structure MigFileRow where
  stream_hash : String
  file_name : String
  download_directory : String
  blob_data_rate : Int
  status : String
deriving DecidableEq, Repr

/-- Modelled from the spec: the migration target schema is created from
`SQLiteStorage.CREATE_TABLES_QUERY`, a constant of a storage version that is
not among the sources (the `storage.py` in the sources has neither that
constant nor a `content_claim` table). Per the spec (sections 3 and 4.5) the
target holds blob, stream, stream_blob, file and claim tables plus a
content-claim association linking a stream to a claim outpoint, with
enforced foreign keys. -/
structure MigDB where
  blob : List BlobRow
  stream : List StreamRow
  stream_blob : List StreamBlobRow
  file : List MigFileRow
  claim : List ClaimRow
  content_claim : List (String × String)
deriving DecidableEq, Repr

/-- The empty (freshly created) migration target. -/
def migEmpty : MigDB := ⟨[], [], [], [], [], []⟩

/-- Plain `INSERT INTO blob` (used by `_populate_blobs`): `IntegrityError`
on a duplicate hash. -/
def mig_insert_blob (db : MigDB) (r : BlobRow) : Except PyErr MigDB :=
  if db.blob.any (fun b => b.blob_hash == r.blob_hash) then Except.error PyErr.integrityError
  else Except.ok { db with blob := db.blob ++ [r] }

/-- `insert or replace into blob` (used by `_add_recovered_blobs` for the
descriptor blob). -/
def mig_insert_or_replace_blob (db : MigDB) (r : BlobRow) : MigDB :=
  { db with blob := (db.blob.filter (fun b => !(b.blob_hash == r.blob_hash))) ++ [r] }

/-- `insert or ignore into blob`. -/
def mig_insert_or_ignore_blob (db : MigDB) (r : BlobRow) : MigDB :=
  if db.blob.any (fun b => b.blob_hash == r.blob_hash) then db
  else { db with blob := db.blob ++ [r] }

/-- `INSERT OR IGNORE INTO stream`: skip on existing `stream_hash`,
`IntegrityError` when `sd_hash` references no blob row. -/
def ins_or_ignore_stream (db : MigDB) (r : StreamRow) : Except PyErr MigDB :=
  if db.stream.any (fun s => s.stream_hash == r.stream_hash) then Except.ok db
  else if db.blob.any (fun b => b.blob_hash == r.sd_hash) then
    Except.ok { db with stream := db.stream ++ [r] }
  else Except.error PyErr.integrityError

/-- `INSERT OR IGNORE INTO stream_blob`: a SQL `NULL` blob hash never
conflicts on the composite key and is exempt from the foreign-key check. -/
def ins_or_ignore_stream_blob (db : MigDB) (r : StreamBlobRow) : Except PyErr MigDB :=
  match r.blob_hash with
  | none =>
    if db.stream.any (fun s => s.stream_hash == r.stream_hash) then
      Except.ok { db with stream_blob := db.stream_blob ++ [r] }
    else Except.error PyErr.integrityError
  | some bh =>
    if db.stream_blob.any (fun x => x.stream_hash == r.stream_hash && x.blob_hash == some bh) then
      Except.ok db
    else if db.stream.any (fun s => s.stream_hash == r.stream_hash) &&
        db.blob.any (fun b => b.blob_hash == bh) then
      Except.ok { db with stream_blob := db.stream_blob ++ [r] }
    else Except.error PyErr.integrityError

/-- `INSERT OR IGNORE INTO file` of the migration target. -/
def ins_or_ignore_file (db : MigDB) (r : MigFileRow) : Except PyErr MigDB :=
  if db.file.any (fun f => f.stream_hash == r.stream_hash) then Except.ok db
  else if db.stream.any (fun s => s.stream_hash == r.stream_hash) then
    Except.ok { db with file := db.file ++ [r] }
  else Except.error PyErr.integrityError

/-- `INSERT OR IGNORE INTO claim` (no foreign keys). -/
def ins_or_ignore_claim (db : MigDB) (r : ClaimRow) : Except PyErr MigDB :=
  if db.claim.any (fun c => c.claim_outpoint == r.claim_outpoint) then Except.ok db
  else Except.ok { db with claim := db.claim ++ [r] }

/-- Modelled from the spec: `INSERT OR IGNORE INTO content_claim`, the
content-claim association of the target schema absent from the sources,
keyed by stream and referencing the file row and the claim outpoint. -/
def ins_or_ignore_content_claim (db : MigDB) (sh op : String) : Except PyErr MigDB :=
  if db.content_claim.any (fun x => x.1 == sh) then Except.ok db
  else if db.file.any (fun f => f.stream_hash == sh) &&
      db.claim.any (fun c => c.claim_outpoint == op) then
    Except.ok { db with content_claim := db.content_claim ++ [(sh, op)] }
  else Except.error PyErr.integrityError

/-- Statement-wise (autocommit) execution of a sequence of SQL statements:
on the first error the effects of the earlier statements are kept. -/
def stepSeq : List (MigDB → Except PyErr MigDB) → MigDB → MigDB × Option PyErr
  | [], db => (db, none)
  | f :: fs, db =>
    match f db with
    | Except.error e => (db, some e)
    | Except.ok db1 => stepSeq fs db1

/-- The rollback semantics the spec mandates for an atomic unit: a failed
unit leaves the database exactly as it was. -/
def run_operation_with_rollback (op : MigDB → MigDB × Option PyErr) (db : MigDB) :
    MigDB × Option PyErr :=
  match op db with
  | (db1, none) => (db1, none)
  | (_, some e) => (db, some e)

/-- The argument tuple of `_import_file`, as stashed in `rerun_args`. -/
structure ImportArgs where
  rowid : Nat
  sd_hash : String
  stream_hash : String
  key : String
  stream_name : String
  suggested_file_name : String
  data_rate : Int
  status : String
  stream_blobs : List (Option String × Nat × String)
deriving DecidableEq, Repr

/-- The legacy-store indexes built at the start of `do_migration` plus the
external `smart_decode(...).certificate_id` primitive. -/
structure MigEnv where
  rowid_outpoint : Nat → Option (String × Nat)
  sd_outpoint : String → Option (String × Nat)
  claims : String × Nat → Option ClaimRec
  certificate_id : String → Option String

/-- `conf.default_download_dir.encode(hex)`, an external configuration
constant. -/
def default_download_directory_hex : String := "646c646972"

/-- The outpoint resolution of `_import_file`: by rowid first, then by
descriptor hash. -/
def resolve_outpoint (env : MigEnv) (a : ImportArgs) : Option (String × Nat) :=
  match env.rowid_outpoint a.rowid with
  | some o => some o
  | none => env.sd_outpoint a.sd_hash

/-- The optional claim and content-claim statements of `_import_file`.
When the outpoint resolves, the `claims` dictionary holds the legacy
`fetchone` result for it; unpacking a `None` result raises `TypeError`. -/
def claim_steps (env : MigEnv) (a : ImportArgs) : List (MigDB → Except PyErr MigDB) :=
  match resolve_outpoint env a with
  | none => []
  | some o =>
    match env.claims o with
    | none => [fun _ => Except.error PyErr.typeError]
    | some c =>
      [fun db => ins_or_ignore_claim db ⟨outpointStr o, c.claim_id, c.name, c.amount, c.height,
        c.serialized, env.certificate_id c.serialized, c.address, c.sequence⟩,
       fun db => ins_or_ignore_content_claim db a.stream_hash (outpointStr o)]

/-- `_import_file`: insert the stream, its stream-blob chain, the file row
and, when an outpoint resolves to a claim, the claim and its content-claim
link — executed statement-wise under autocommit. -/
def import_file (env : MigEnv) (a : ImportArgs) (db : MigDB) : MigDB × Option PyErr :=
  stepSeq
    ([fun db => ins_or_ignore_stream db
        ⟨a.stream_hash, a.sd_hash, a.key, a.stream_name, a.suggested_file_name⟩] ++
     a.stream_blobs.map (fun sb => fun db =>
        ins_or_ignore_stream_blob db ⟨a.stream_hash, sb.1, sb.2.1, sb.2.2⟩) ++
     [fun db => ins_or_ignore_file db
        ⟨a.stream_hash, a.stream_name, default_download_directory_hex, a.data_rate, a.status⟩] ++
     claim_steps env a) db

/-- A row of the legacy `blobs` table (the ignored third column dropped). -/
structure LegacyBlobRow where
  blob_hash : String
  blob_length : Nat
  next_announce_time : Int
  should_announce : Bool
deriving DecidableEq, Repr

/-- `_populate_blobs`: bulk-copy the legacy blob rows as `finished`. -/
def populate_blobs (rows : List LegacyBlobRow) (db : MigDB) : MigDB × Option PyErr :=
  stepSeq (rows.map (fun r => fun db =>
    mig_insert_blob db ⟨r.blob_hash, r.blob_length, r.next_announce_time,
      r.should_announce, "finished"⟩)) db

/-- A decoded on-disk stream-descriptor JSON document; `exact_keys` records
whether its key set is exactly the six required keys. -/
structure SdJson where
  exact_keys : Bool
  stream_name : String
  key : String
  suggested_file_name : String
  stream_hash : String
  blobs : List RawBlob
deriving DecidableEq, Repr

/-- An on-disk descriptor file: `decoded = none` when `json.loads` fails
(`ValueError`). -/
structure DiskSd where
  decoded : Option SdJson
  sd_length : Nat
deriving DecidableEq, Repr

/-- The per-entry assertion of `verify_sd_blob`: the entry numbered
`len(blobs) - 1` is the hashless zero-length terminator, every other entry
has a hash and positive length. -/
def sd_entry_ok (total : Nat) (b : RawBlob) : Bool :=
  if b.blob_num = total - 1 then !b.blob_hash.isSome && b.length == 0
  else b.blob_hash.isSome && decide (b.length > 0)

/-- `verify_sd_blob`: read and decode the file, check the key set and the
chain invariants, failing with `AssertionError` on a violated assertion. -/
def verify_sd_blob (d : DiskSd) : Except PyErr (SdJson × Nat) :=
  match d.decoded with
  | none => Except.error PyErr.valueError
  | some j =>
    if j.exact_keys then
      if j.blobs.all (sd_entry_ok j.blobs.length) then Except.ok (j, d.sd_length)
      else Except.error PyErr.assertionError
    else Except.error PyErr.assertionError

/-- Stable descending insertion by `blob_num`. -/
def insertDescByNum (x : RawBlob) : List RawBlob → List RawBlob
  | [] => [x]
  | y :: ys => if x.blob_num ≥ y.blob_num then x :: y :: ys else y :: insertDescByNum x ys

/-- `sorted(blob_infos, key=..., reverse=True)`. -/
def sortDescByNum : List RawBlob → List RawBlob
  | [] => []
  | x :: xs => insertDescByNum x (sortDescByNum xs)

/-- `_add_recovered_blobs`: replace the descriptor blob row, then insert the
non-terminator chain blobs as `pending` (the enumerate index decides
`should_announce`, accessing the hash key of each inserted entry). -/
def add_recovered_blobs (blobs : List RawBlob) (sd_h : String) (sd_len : Nat) (db : MigDB) :
    MigDB × Option PyErr :=
  stepSeq
    ([fun db => Except.ok (mig_insert_or_replace_blob db ⟨sd_h, sd_len, 0, true, "finished"⟩)] ++
     ((sortDescByNum blobs).enum.filter (fun p => decide (p.2.blob_num < blobs.length - 1))).map
       (fun p => fun db =>
         match p.2.blob_hash with
         | none => Except.error (PyErr.keyError "blob_hash")
         | some bh =>
           Except.ok (mig_insert_or_ignore_blob db ⟨bh, p.2.length, 0, p.1 == 0, "pending"⟩))) db

/-- A joined legacy lbry-file record (`rowid, sd_blob_hash, lbry_files.*,
blob_data_rate, status`). -/
structure LegacyFileRow where
  rowid : Nat
  sd_hash : String
  stream_hash : String
  key : String
  stream_name : String
  suggested_file_name : String
  data_rate : Option Int
  status : String
deriving DecidableEq, Repr

/-- The `_import_file` call arguments for one legacy record
(`data_rate or 0.0`). -/
def import_args_of (f : LegacyFileRow) (sbs : List (Option String × Nat × String)) :
    ImportArgs :=
  ⟨f.rowid, f.sd_hash, f.stream_hash, f.key, f.stream_name, f.suggested_file_name,
   f.data_rate.getD 0, f.status, sbs⟩

/-- The first migration loop: import each legacy stream; an
`IntegrityError` marks it damaged and stashes its arguments in
`rerun_args`; any other exception aborts the migration. -/
def first_pass (env : MigEnv) (fb : String → List (Option String × Nat × String)) :
    List LegacyFileRow → MigDB →
    Except PyErr (MigDB × List String × List String × List (String × ImportArgs))
  | [], db => Except.ok (db, [], [], [])
  | f :: fs, db =>
    match import_file env (import_args_of f (fb f.stream_hash)) db with
    | (db1, none) =>
      match first_pass env fb fs db1 with
      | Except.error e => Except.error e
      | Except.ok (dbf, imp, dmg, rr) => Except.ok (dbf, f.sd_hash :: imp, dmg, rr)
    | (db1, some PyErr.integrityError) =>
      match first_pass env fb fs db1 with
      | Except.error e => Except.error e
      | Except.ok (dbf, imp, dmg, rr) =>
        Except.ok (dbf, imp, f.sd_hash :: dmg,
          (f.sd_hash, import_args_of f (fb f.stream_hash)) :: rr)
    | (_, some e) => Except.error e

/-- The exception kinds caught by the recovery loop
(`OSError, ValueError, TypeError, IOError, AssertionError, IntegrityError`). -/
def caught_in_recovery : PyErr → Bool
  | PyErr.osError => true
  | PyErr.valueError => true
  | PyErr.typeError => true
  | PyErr.assertionError => true
  | PyErr.integrityError => true
  | _ => false

/-- The recovery loop over damaged streams: for each damaged descriptor
present on disk, verify it, insert the recovered blob rows and retry the
import; a caught failure leaves that stream permanently damaged and
processing continues with the next one. -/
def recovery (env : MigEnv) (rerun : String → Option ImportArgs)
    (blobfiles : String → Option DiskSd) :
    List String → MigDB → Except PyErr (MigDB × List String × List String)
  | [], db => Except.ok (db, [], [])
  | sd :: rest, db =>
    match blobfiles sd with
    | none =>
      match recovery env rerun blobfiles rest db with
      | Except.error e => Except.error e
      | Except.ok (dbf, imp, dmg) => Except.ok (dbf, imp, sd :: dmg)
    | some disk =>
      match verify_sd_blob disk with
      | Except.error e =>
        if caught_in_recovery e then
          match recovery env rerun blobfiles rest db with
          | Except.error e2 => Except.error e2
          | Except.ok (dbf, imp, dmg) => Except.ok (dbf, imp, sd :: dmg)
        else Except.error e
      | Except.ok (j, len) =>
        match add_recovered_blobs j.blobs sd len db with
        | (db1, some e) =>
          if caught_in_recovery e then
            match recovery env rerun blobfiles rest db1 with
            | Except.error e2 => Except.error e2
            | Except.ok (dbf, imp, dmg) => Except.ok (dbf, imp, sd :: dmg)
          else Except.error e
        | (db1, none) =>
          match rerun sd with
          | none => Except.error (PyErr.keyError "rerun_args")
          | some a =>
            match import_file env a db1 with
            | (db2, none) =>
              match recovery env rerun blobfiles rest db2 with
              | Except.error e => Except.error e
              | Except.ok (dbf, imp, dmg) => Except.ok (dbf, sd :: imp, dmg)
            | (db2, some e) =>
              if caught_in_recovery e then
                match recovery env rerun blobfiles rest db2 with
                | Except.error e2 => Except.error e2
                | Except.ok (dbf, imp, dmg) => Except.ok (dbf, imp, sd :: dmg)
              else Except.error e

/-- The final migration counts (`imported`, `failed to import`). -/
structure Report where
  imported : Nat
  damaged : Nat
deriving DecidableEq, Repr

/-- The four legacy stores consumed by `do_migration`. -/
structure LegacyData where
  blobs : List LegacyBlobRow
  files : List LegacyFileRow
  file_blobs : String → List (Option String × Nat × String)
  blobfiles : String → Option DiskSd

/-- `do_migration` / `_make_db`: populate blobs, run the first import loop,
recover damaged streams from on-disk descriptors, and report the counts. -/
def do_migration (env : MigEnv) (L : LegacyData) (db0 : MigDB) :
    Except PyErr (Report × MigDB) :=
  match populate_blobs L.blobs db0 with
  | (_, some e) => Except.error e
  | (db1, none) =>
    match first_pass env L.file_blobs L.files db1 with
    | Except.error e => Except.error e
    | Except.ok (db2, imp, dmg, rr) =>
      match recovery env (fun sd => (rr.find? (fun p => p.1 == sd)).map (fun p => p.2))
          L.blobfiles dmg db2 with
      | Except.error e => Except.error e
      | Except.ok (db3, imp2, dmg2) =>
        Except.ok (⟨imp.length + imp2.length, dmg2.length⟩, db3)

/-- An environment in which no outpoint resolves. -/
def envTrivial : MigEnv := ⟨fun _ => none, fun _ => none, fun _ => none, fun _ => none⟩

/-- A target holding only the descriptor blob `d1`: the stream insert
succeeds, but the chain blob `b1` violates the foreign key. -/
def dbC4 : MigDB := { migEmpty with blob := [⟨"d1", 10, 0, true, "finished"⟩] }

/-- The import arguments of the C4 failing unit. -/
def argsC4 : ImportArgs :=
  ⟨1, "d1", "s1", "6b", "6e", "6e", 0, "stopped", [(some "b1", 0, "69")]⟩

/-- The legacy record producing `argsC4`. -/
def legacyC4 : LegacyFileRow := ⟨1, "d1", "s1", "6b", "6e", "6e", some 0, "stopped"⟩

/-- C4: at a unit whose stream insert succeeds and whose stream-blob insert
raises `IntegrityError`, the executed statements persist — the stream row of
the failed unit remains, because `run_operation` switched the connection to
autocommit (`isolation_level = None`) so its `rollback()` has no transaction
to roll back — whereas the rollback semantics the claim and the spec mandate
would leave the database unchanged. The driver does mark the stream damaged
and retains its original arguments. -/
theorem c4_failed_unit_keeps_inserted_rows :
    (import_file envTrivial argsC4 dbC4).2 = some PyErr.integrityError ∧
    (⟨"s1", "d1", "6b", "6e", "6e"⟩ : StreamRow) ∈ (import_file envTrivial argsC4 dbC4).1.stream ∧
    (run_operation_with_rollback (import_file envTrivial argsC4) dbC4).1 = dbC4 ∧
    (import_file envTrivial argsC4 dbC4).1 ≠ dbC4 ∧
    first_pass envTrivial (fun _ => [(some "b1", 0, "69")]) [legacyC4] dbC4 =
      Except.ok ((import_file envTrivial argsC4 dbC4).1, [], ["d1"], [("d1", argsC4)]) := by
  refine ⟨rfl, by decide, rfl, by decide, rfl⟩

/-- The legacy chain rows of the clean stream. -/
def chainC : List (Option String × Nat × String) := [(some "bC0", 0, "69"), (none, 1, "70")]

/-- The legacy chain rows of the damaged stream. -/
def chainD : List (Option String × Nat × String) := [(some "bD0", 0, "69"), (none, 1, "70")]

/-- The clean legacy stream: its descriptor blob is in the legacy blob
table and its outpoint resolves to a claim. -/
def fileC : LegacyFileRow := ⟨1, "sdC", "shC", "6b", "6e", "6e", some 0, "stopped"⟩

/-- The damaged legacy stream: its descriptor blob `sdD` is missing from
the legacy blob table, so the stream insert violates the foreign key. -/
def fileD : LegacyFileRow := ⟨2, "sdD", "shD", "6b", "6e", "6e", none, "stopped"⟩

/-- The legacy blob rows: `sdD` is absent. -/
def legacyBlobsCD : List LegacyBlobRow :=
  [⟨"sdC", 10, 0, true⟩, ⟨"bC0", 5, 0, false⟩, ⟨"bD0", 5, 0, false⟩]

/-- The environment of the migration scenarios: rowid 1 resolves to an
outpoint carrying a claim record. -/
def envC5 : MigEnv :=
  { rowid_outpoint := fun r => if r = 1 then some ("tx1", 0) else none,
    sd_outpoint := fun _ => none,
    claims := fun o => if o = ("tx1", 0) then some ⟨"cid1", "nm", 1, "addr", 7, 2, "ser"⟩ else none,
    certificate_id := fun _ => none }

/-- The valid on-disk descriptor of the damaged stream. -/
def sdJsonD : SdJson :=
  ⟨true, "6e", "6b", "6e", "shD", [⟨some "bD0", 0, "69", 5⟩, ⟨none, 1, "70", 0⟩]⟩

/-- Scenario 1: one clean and one damaged stream, a valid descriptor for
the damaged one on disk. -/
def legacyS1 : LegacyData :=
  { blobs := legacyBlobsCD, files := [fileC, fileD],
    file_blobs := fun sh => if sh == "shC" then chainC else if sh == "shD" then chainD else [],
    blobfiles := fun sd => if sd == "sdD" then some ⟨some sdJsonD, 20⟩ else none }

/-- Scenario 2: the same stores with no on-disk descriptor directory. -/
def legacyS2 : LegacyData :=
  { blobs := legacyBlobsCD, files := [fileC, fileD],
    file_blobs := legacyS1.file_blobs,
    blobfiles := fun _ => none }

/-- A damaged stream whose on-disk descriptor is malformed JSON. -/
def fileM : LegacyFileRow := ⟨3, "sdM", "shM", "6b", "6e", "6e", none, "stopped"⟩

/-- A damaged stream whose retry still fails: its legacy chain references
blob `bZ`, which neither the legacy blob table nor its descriptor holds. -/
def fileS : LegacyFileRow := ⟨4, "sdS", "shS", "6b", "6e", "6e", none, "stopped"⟩

/-- A damaged stream recoverable from its valid on-disk descriptor. -/
def fileG : LegacyFileRow := ⟨5, "sdG", "shG", "6b", "6e", "6e", none, "stopped"⟩

/-- The valid on-disk descriptor of `fileS` (which does not repair the bad
chain reference `bZ`). -/
def sdJsonS : SdJson :=
  ⟨true, "6e", "6b", "6e", "shS", [⟨some "bS0", 0, "69", 5⟩, ⟨none, 1, "70", 0⟩]⟩

/-- The valid on-disk descriptor of `fileG`. -/
def sdJsonG : SdJson :=
  ⟨true, "6e", "6b", "6e", "shG", [⟨some "bG0", 0, "69", 5⟩, ⟨none, 1, "70", 0⟩]⟩

/-- Scenario 3: a clean stream followed by three damaged ones — malformed
descriptor, still-failing retry, and recoverable — exercising
continue-on-failure inside the recovery loop. -/
def legacyS3 : LegacyData :=
  { blobs := [⟨"sdC", 10, 0, true⟩, ⟨"bC0", 5, 0, false⟩, ⟨"bM0", 5, 0, false⟩],
    files := [fileC, fileM, fileS, fileG],
    file_blobs := fun sh =>
      if sh == "shC" then chainC
      else if sh == "shM" then [(some "bM0", 0, "69"), (none, 1, "70")]
      else if sh == "shS" then [(some "bZ", 0, "69"), (none, 1, "70")]
      else if sh == "shG" then [(some "bG0", 0, "69"), (none, 1, "70")]
      else [],
    blobfiles := fun sd =>
      if sd == "sdM" then some ⟨none, 15⟩
      else if sd == "sdS" then some ⟨some sdJsonS, 20⟩
      else if sd == "sdG" then some ⟨some sdJsonG, 20⟩
      else none }

/-- C5: with a valid on-disk descriptor for the damaged stream the engine
reports 2 imported / 0 damaged and both streams are queryable; with no
on-disk descriptor it reports 1 imported / 1 damaged and the clean stream
is unaffected; and recovery failures (malformed descriptor content, a
still-failing insert) are caught per stream, processing continuing to the
next damaged stream rather than aborting. -/
theorem c5_migration_scenarios :
    Except.map (fun r => (r.1.imported, r.1.damaged, r.2.stream.map (fun s => s.stream_hash)))
        (do_migration envC5 legacyS1 migEmpty) = Except.ok (2, 0, ["shC", "shD"]) ∧
    Except.map (fun r => (r.1.imported, r.1.damaged, r.2.stream.map (fun s => s.stream_hash),
          r.2.file.map (fun f => f.stream_hash)))
        (do_migration envC5 legacyS2 migEmpty) = Except.ok (1, 1, ["shC"], ["shC"]) ∧
    Except.map (fun r => (r.1.imported, r.1.damaged, r.2.stream.map (fun s => s.stream_hash)))
        (do_migration envC5 legacyS3 migEmpty) = Except.ok (2, 2, ["shC", "shS", "shG"]) := by
  refine ⟨rfl, rfl, rfl⟩

end Lbry
